import Mathlib

/-!
Verification development for the adventuregame core of the clembench repository:
a shallow embedding of `AdventureGameMaster` (turn orchestration) and
`AdventureGameScorer.compute_scores` (episode scoring) from
`src/games/adventuregame/master.py`, together with theorems settling the
specification claims about them.

Modelling conventions:
* Python floats produced by `/` are modelled as exact rationals (all claim
  values are dyadic, so no rounding issue arises for the statements proved).
* `np.nan` (the not-applicable sentinel) is a distinct `ScoreVal.nan` value.
* Python exceptions (`KeyError`, `ZeroDivisionError`) are modelled by an
  error component in the result: `compute_scores` returns the list of score
  entries logged before the exception together with `Option ScoreErr`,
  mirroring the fact that `log_turn_score` / `log_episode_score` mutate the
  record as the function runs and an exception aborts the rest.
* A Python dict used only as a total table (the per-turn `turn_fail` dict,
  initialised on all keys the code ever reads) is modelled as a function
  `String → Nat` updated pointwise.
-/

namespace Adventuregame

/-- Modelled from the spec: metric-name constants from `clemgame.metrics`
(the module is not part of the sources given, only this game's master).
The spec calls them the canonical per-turn/per-episode metric names; their
concrete string values are immaterial to every claim, only their identity
and pairwise distinctness matter. -/
def METRIC_ABORTED : String := "Aborted"

def METRIC_SUCCESS : String := "Success"

def METRIC_LOSE : String := "Lose"

def METRIC_REQUEST_COUNT : String := "Request Count"

def METRIC_REQUEST_COUNT_PARSED : String := "Parsed Request Count"

def METRIC_REQUEST_COUNT_VIOLATED : String := "Violated Request Count"

def METRIC_REQUEST_SUCCESS : String := "Request Success Ratio"

def BENCH_SCORE : String := "Main Score"

/-- Content of an `adventure_info` event, as logged by
`AdventureGameMaster._on_setup` (master.py lines 68-72). -/
structure AdvInfo where
  variant : String
  max_turns : Int
  optimal_turns : Int
  goal_count : Int
deriving DecidableEq, Repr

/-- A typed event (`action` record) of the interaction log, covering exactly
the `action["type"]` values inspected by `compute_scores`
(master.py lines 223-246); `other` stands for any event type the scorer
ignores (player responses, parse events, ...). -/
inductive GAction where
  | adventure_info (content : AdvInfo)
  | invalid_format (content : String)
  | action_fail (phase : String) (fail_type : String)
  | turn_limit_reached (content : Int)
  | goal_status (goal_states_achieved : List String) (turn_goal_score : Int)
  | game_result (goal_states_achieved : List String) (game_successfully_finished : Bool)
  | other (t : String)
deriving DecidableEq, Repr

/-- A logged numeric score value: a number (Python int/float, modelled
exactly as a rational) or the `np.nan` sentinel. -/
inductive ScoreVal where
  | num (q : ℚ)
  | nan
deriving DecidableEq, Repr

/-- One `log_turn_score` / `log_episode_score` record. -/
inductive LogEntry where
  | turn (idx : Nat) (name : String) (v : ScoreVal)
  | episode (name : String) (v : ScoreVal)
deriving DecidableEq, Repr

/-- A Python exception raised by `compute_scores`. -/
inductive ScoreErr where
  | keyError (key : String)
  | zeroDivisionError
deriving DecidableEq, Repr

/-- master.py lines 212-214: IF interpreter interaction fail phases/types;
first two are the 'parsing' and 'resolution' phases. -/
def fail_types : List String :=
  ["parsing", "resolution", "lark_exception", "undefined_action_verb", "undefined_action",
   "undefined_repr_str", "undefined_type", "not_room_type", "no_exit_to", "multiple_exits_to",
   "entity_not_accessible", "multiple_entity_ambiguity", "pre_state_mismatch"]

/-- The scorer's local variables that persist across the turn loop
(master.py lines 209-219): `adventure_info` (initially the empty dict,
modelled as `none`), `invalid_format`, `turn_limit_loss`,
`successfully_finished`, `final_goals_achieved`. -/
structure EpState where
  adventure_info : Option AdvInfo
  invalid_format : String
  turn_limit_loss : Bool
  successfully_finished : Bool
  final_goals_achieved : List String
deriving DecidableEq, Repr

def initEpState : EpState := ⟨none, "", false, false, []⟩

/-- Python dict assignment `d[k] = v` on a table modelled as a function. -/
def dictSet (d : String → Nat) (k : String) (v : Nat) : String → Nat :=
  fun x => if x = k then v else d x

/-- Accumulator of the per-event loop inside one turn
(master.py lines 221-246): the persistent state, the optional
`turn_score["goal_score"]` entry, and the `turn_fail` table. -/
structure TurnAcc where
  st : EpState
  goal_score : Option Int
  turn_fail : String → Nat

/-- Effect of one event on the scorer's loop state,
embedding the if-chain of master.py lines 223-246. -/
def processEvent (a : TurnAcc) : GAction → TurnAcc
  | GAction.adventure_info c =>
      { a with st := { a.st with adventure_info := some c } }
  | GAction.invalid_format c =>
      { a with st := { a.st with invalid_format := c } }
  | GAction.action_fail p ft =>
      { a with turn_fail := dictSet (dictSet a.turn_fail p 1) ft 1 }
  | GAction.turn_limit_reached _ =>
      { a with st := { a.st with turn_limit_loss := true } }
  | GAction.goal_status _ sc =>
      { a with goal_score := some sc }
  | GAction.game_result gs fin =>
      { a with st := { a.st with successfully_finished := fin, final_goals_achieved := gs } }
  | GAction.other _ => a

/-- `turn_fail = {fail_type: 0 for fail_type in fail_types}` (line 222):
all keys the code ever reads are initialised to 0. -/
def initTurnFail : String → Nat := fun _ => 0

/-- The event loop of one turn (master.py lines 221-246). -/
def scoreTurn (st : EpState) (turn : List GAction) : TurnAcc :=
  turn.foldl processEvent ⟨st, none, initTurnFail⟩

/-- The `log_turn_score` calls of one turn iteration
(master.py lines 248-274), in source order.  The `goal_score` entry is
present only when the turn had a `goal_status` event; its absence is where
the source raises `KeyError("goal_score")` at line 274. -/
def turnBlock (idx : Nat) (a : TurnAcc) : List LogEntry :=
  let pv : Nat × Nat := if a.st.invalid_format ≠ "" then (0, 1) else (1, 0)
  [LogEntry.turn idx METRIC_REQUEST_COUNT (ScoreVal.num 1),
   LogEntry.turn idx METRIC_REQUEST_COUNT_PARSED (ScoreVal.num pv.1),
   LogEntry.turn idx METRIC_REQUEST_COUNT_VIOLATED (ScoreVal.num pv.2)]
  ++ (if a.st.invalid_format = "command_tag_missing" then
        [LogEntry.turn idx "command_tag_missing" (ScoreVal.num 1),
         LogEntry.turn idx "next_actions_missing" (ScoreVal.num 0)]
      else if a.st.invalid_format = "next_actions_missing" then
        [LogEntry.turn idx "command_tag_missing" (ScoreVal.num 0),
         LogEntry.turn idx "next_actions_missing" (ScoreVal.num 1)]
      else
        [LogEntry.turn idx "command_tag_missing" (ScoreVal.num 0),
         LogEntry.turn idx "next_actions_missing" (ScoreVal.num 0)])
  ++ [LogEntry.turn idx "action_parsing_fail" (ScoreVal.num (a.turn_fail "parsing")),
      LogEntry.turn idx "action_resolution_fail" (ScoreVal.num (a.turn_fail "resolution"))]
  ++ (fail_types.drop 2).map (fun ft => LogEntry.turn idx ft (ScoreVal.num (a.turn_fail ft)))
  ++ (match a.goal_score with
      | some g => [LogEntry.turn idx "goal_score" (ScoreVal.num g)]
      | none => [])

/-- One row of `turn_scores` as appended at master.py line 276 (only turns
that passed line 274 are appended, so `goal_score` is present). -/
structure TurnScore where
  request_count : Nat
  goal_score : Int
  violated_request_count : Nat
  parsed_request_count : Nat
deriving DecidableEq, Repr

/-- The scorer's mutable episode-level accumulation: persistent loop state,
`turn_scores`, `turn_fails`, and the record of `log_*_score` calls so far. -/
structure LoopAcc where
  st : EpState
  turn_scores : List TurnScore
  turn_fails : List (String → Nat)
  entries : List LogEntry

/-- The turn loop of `compute_scores` (master.py lines 220-277).
Stops with `KeyError("goal_score")` when a turn has no `goal_status` event
(line 274), with all entries logged before the exception preserved. -/
def scoreTurnsAux : LoopAcc → Nat → List (List GAction) → LoopAcc × Option ScoreErr
  | acc, _, [] => (acc, none)
  | acc, idx, turn :: rest =>
    let a := scoreTurn acc.st turn
    let entries1 := acc.entries ++ turnBlock idx a
    match a.goal_score with
    | none => ({ acc with st := a.st, entries := entries1 }, some (ScoreErr.keyError "goal_score"))
    | some g =>
      let pv : Nat × Nat := if a.st.invalid_format ≠ "" then (0, 1) else (1, 0)
      scoreTurnsAux
        { st := a.st,
          turn_scores := acc.turn_scores ++ [⟨1, g, pv.2, pv.1⟩],
          turn_fails := acc.turn_fails ++ [a.turn_fail],
          entries := entries1 }
        (idx + 1) rest

/-- The episode-level tail of `compute_scores` (master.py lines 279-368):
the `log_episode_score` calls emitted after the turn loop, in source order,
with the Python exceptions surfaced as errors:
`ZeroDivisionError` at line 289 (`parsed/request` with zero turns),
`KeyError("optimal_turns")` at line 313 (no `adventure_info` event seen),
`ZeroDivisionError` at line 324 (`max_turns == optimal_turns`),
`ZeroDivisionError` at line 335 (`goal_count == 0`), and
`ZeroDivisionError` at line 339 (the computed-but-unlogged `goal_rating`
with zero turns). -/
def episodeEntries (acc : LoopAcc) : List LogEntry × Option ScoreErr :=
  let violated_request_count : Nat := (acc.turn_scores.map (fun t => t.violated_request_count)).sum
  let parsed_request_count : Nat := (acc.turn_scores.map (fun t => t.parsed_request_count)).sum
  let request_count : Nat := (acc.turn_scores.map (fun t => t.request_count)).sum
  let e1 : List LogEntry :=
    [LogEntry.episode METRIC_REQUEST_COUNT_VIOLATED (ScoreVal.num violated_request_count),
     LogEntry.episode METRIC_REQUEST_COUNT_PARSED (ScoreVal.num parsed_request_count),
     LogEntry.episode METRIC_REQUEST_COUNT (ScoreVal.num request_count)]
  if request_count = 0 then (e1, some ScoreErr.zeroDivisionError) else
  let e2 := e1 ++ [LogEntry.episode METRIC_REQUEST_SUCCESS
      (ScoreVal.num ((parsed_request_count : ℚ) / (request_count : ℚ)))]
  let action_parsing_fail_count : Nat := (acc.turn_fails.map (fun tf => tf "parsing")).sum
  let action_resolution_fail_count : Nat := (acc.turn_fails.map (fun tf => tf "resolution")).sum
  let e3 := e2 ++
    [LogEntry.episode "action_parsing_fail" (ScoreVal.num action_parsing_fail_count),
     LogEntry.episode "action_resolution_fail" (ScoreVal.num action_resolution_fail_count)]
    ++ (fail_types.drop 2).map
        (fun ft => LogEntry.episode ft (ScoreVal.num ((acc.turn_fails.map (fun tf => tf ft)).sum)))
  let e4 := e3 ++ [LogEntry.episode "turn_limit_loss"
      (ScoreVal.num (if acc.st.turn_limit_loss then 1 else 0))]
  let turn_count := acc.turn_scores.length
  match acc.st.adventure_info with
  | none => (e4, some (ScoreErr.keyError "optimal_turns"))
  | some info =>
    let turns_over_par : Int := (turn_count : Int) - info.optimal_turns
    let e5 := e4 ++ [LogEntry.episode "turns_over_par"
        (if acc.st.successfully_finished then ScoreVal.num (turns_over_par : ℚ) else ScoreVal.nan)]
    let turn_range : Int := info.max_turns - info.optimal_turns
    if turn_range = 0 then (e5, some ScoreErr.zeroDivisionError) else
    let turn_ratio_val : ℚ := 1 - (turns_over_par : ℚ) / (turn_range : ℚ)
    let e6 := e5 ++ [LogEntry.episode "turn_ratio"
        (if acc.st.successfully_finished then ScoreVal.num turn_ratio_val else ScoreVal.nan)]
    let final_goal_score := acc.st.final_goals_achieved.length
    if info.goal_count = 0 then (e6, some ScoreErr.zeroDivisionError) else
    let achieved_ratio_val : ℚ := (final_goal_score : ℚ) / (info.goal_count : ℚ)
    let e7 := e6 ++ [LogEntry.episode "achieved_goal_ratio" (ScoreVal.num achieved_ratio_val)]
    if turn_count = 0 then (e7, some ScoreErr.zeroDivisionError) else
    let full_rating : ℚ := achieved_ratio_val * turn_ratio_val
    let e8 := e7 ++ [LogEntry.episode BENCH_SCORE
        (if acc.st.successfully_finished then ScoreVal.num full_rating else ScoreVal.nan)]
    let e9 := e8 ++ [LogEntry.episode METRIC_ABORTED
        (ScoreVal.num (if acc.st.invalid_format ≠ "" then 1 else 0))]
    let e10 := e9 ++
      (if acc.st.successfully_finished then
        [LogEntry.episode METRIC_SUCCESS (ScoreVal.num 1),
         LogEntry.episode METRIC_LOSE (ScoreVal.num 0)]
      else
        [LogEntry.episode METRIC_SUCCESS (ScoreVal.num 0),
         LogEntry.episode METRIC_LOSE (ScoreVal.num 1)])
    (e10, none)

/-- `AdventureGameScorer.compute_scores` (master.py lines 207-368) as a pure
function of the interaction log: the sequence of logged scores together
with the exception aborting the run, if any. -/
def compute_scores (episode_interactions : List (List GAction)) :
    List LogEntry × Option ScoreErr :=
  let r := scoreTurnsAux ⟨initEpState, [], [], []⟩ 0 episode_interactions
  match r.2 with
  | some e => (r.1.entries, some e)
  | none =>
    let tail := episodeEntries r.1
    (r.1.entries ++ tail.1, tail.2)

/-- First episode-level entry with the given name (each name is logged at
most once by `compute_scores`, so first/last agree). -/
def epScoreLookup : List LogEntry → String → Option ScoreVal
  | [], _ => none
  | LogEntry.episode n v :: rest, name =>
      if n = name then some v else epScoreLookup rest name
  | LogEntry.turn _ _ _ :: rest, name => epScoreLookup rest name

/-- First turn-level entry with the given turn index and name. -/
def turnScoreLookup : List LogEntry → Nat → String → Option ScoreVal
  | [], _, _ => none
  | LogEntry.turn i n v :: rest, idx, name =>
      if i = idx ∧ n = name then some v else turnScoreLookup rest idx name
  | LogEntry.episode _ _ :: rest, idx, name => turnScoreLookup rest idx name

def isGoalStatus : GAction → Bool
  | GAction.goal_status _ _ => true
  | _ => false

def isInvalidFormat : GAction → Bool
  | GAction.invalid_format _ => true
  | _ => false

/-- A turn containing a `goal_status` event (the condition under which the
source's line 274 does not raise). -/
def hasGoalStatusEvent (turn : List GAction) : Bool :=
  turn.any isGoalStatus

/-- Some turn of the log contains an `invalid_format` event. -/
def hasInvalidFormatEvent (turns : List (List GAction)) : Bool :=
  turns.any (fun t => t.any isInvalidFormat)

/-! ### Proof-side helper functions

The following functions are not part of the embedding; they re-express
components of the loop state of `compute_scores` in a directly recursive
form convenient for induction, and are related to the embedding by the
lemmas below. -/

/-- The effect of a single event on the scorer's persistent local
variables (the `EpState` projection of `processEvent`). -/
def stepSt (s : EpState) : GAction → EpState
  | GAction.adventure_info c => { s with adventure_info := some c }
  | GAction.invalid_format c => { s with invalid_format := c }
  | GAction.turn_limit_reached _ => { s with turn_limit_loss := true }
  | GAction.game_result gs fin =>
      { s with successfully_finished := fin, final_goals_achieved := gs }
  | _ => s

/-- Persistent scorer state after scanning one turn's events. -/
def epStep (s : EpState) (turn : List GAction) : EpState :=
  turn.foldl stepSt s

/-- Persistent scorer state after scanning a whole log. -/
def stAfterTurns (turns : List (List GAction)) : EpState :=
  turns.foldl epStep initEpState

/-- Content of the most recent `invalid_format` event of `l`
(`v` if there is none): the value the scorer's `invalid_format` local
variable holds after scanning `l` starting from `v`. -/
def lastInvalidFormat (v : String) (l : List GAction) : String :=
  l.foldl (fun cur ev => match ev with
    | GAction.invalid_format c => c
    | _ => cur) v

/-- The per-turn log blocks emitted by the scorer's turn loop. -/
def entriesBlocks : Nat → EpState → List (List GAction) → List LogEntry
  | _, _, [] => []
  | idx, st, t :: rest =>
      turnBlock idx (scoreTurn st t) ++ entriesBlocks (idx + 1) (epStep st t) rest

/-- The `turn_scores` rows accumulated by a crash-free run of the turn loop. -/
def turnScoresOf : EpState → List (List GAction) → List TurnScore
  | _, [] => []
  | st, t :: rest =>
    let a := scoreTurn st t
    let pv : Nat × Nat := if a.st.invalid_format ≠ "" then (0, 1) else (1, 0)
    ⟨1, a.goal_score.getD 0, pv.2, pv.1⟩ :: turnScoresOf a.st rest

/-- The `turn_fails` tables accumulated by a crash-free run of the turn loop. -/
def turnFailsOf : EpState → List (List GAction) → List (String → Nat)
  | _, [] => []
  | st, t :: rest => (scoreTurn st t).turn_fail :: turnFailsOf (scoreTurn st t).st rest

def LogEntry.isTurnEntry : LogEntry → Bool
  | LogEntry.turn _ _ _ => true
  | LogEntry.episode _ _ => false


lemma foldl_processEvent_st (l : List GAction) :
    ∀ a : TurnAcc, (l.foldl processEvent a).st = l.foldl stepSt a.st := by
  induction l with
  | nil => intro a; rfl
  | cons ev rest ih =>
    intro a
    rw [List.foldl_cons, List.foldl_cons, ih]
    cases ev <;> rfl

lemma scoreTurn_st (st : EpState) (turn : List GAction) :
    (scoreTurn st turn).st = epStep st turn :=
  foldl_processEvent_st turn ⟨st, none, initTurnFail⟩

lemma foldl_processEvent_goal (l : List GAction) :
    ∀ a : TurnAcc, (l.foldl processEvent a).goal_score.isSome
      = (a.goal_score.isSome || l.any isGoalStatus) := by
  induction l with
  | nil => intro a; simp
  | cons ev rest ih =>
    intro a
    rw [List.foldl_cons, ih, List.any_cons]
    cases ev <;> simp [processEvent, isGoalStatus]

lemma scoreTurn_goal_isSome (st : EpState) (turn : List GAction) :
    (scoreTurn st turn).goal_score.isSome = hasGoalStatusEvent turn := by
  rw [scoreTurn, foldl_processEvent_goal]
  simp [hasGoalStatusEvent]

lemma epStep_invalid (turn : List GAction) :
    ∀ s : EpState, (epStep s turn).invalid_format = lastInvalidFormat s.invalid_format turn := by
  induction turn with
  | nil => intro s; rfl
  | cons ev rest ih =>
    intro s
    show (epStep (stepSt s ev) rest).invalid_format = _
    rw [ih]
    cases ev <;> rfl

lemma lastInvalidFormat_append (v : String) (l1 l2 : List GAction) :
    lastInvalidFormat v (l1 ++ l2) = lastInvalidFormat (lastInvalidFormat v l1) l2 := by
  rw [lastInvalidFormat, List.foldl_append, ← lastInvalidFormat, ← lastInvalidFormat]

lemma foldl_epStep_invalid (ts : List (List GAction)) :
    ∀ s : EpState, (ts.foldl epStep s).invalid_format
      = lastInvalidFormat s.invalid_format ts.flatten := by
  induction ts with
  | nil => intro s; rfl
  | cons t rest ih =>
    intro s
    rw [List.foldl_cons, ih, List.flatten_cons, lastInvalidFormat_append, epStep_invalid]

lemma lastInvalidFormat_ne_iff (l : List GAction) :
    ∀ v : String, (∀ c, GAction.invalid_format c ∈ l → c ≠ "") →
      (lastInvalidFormat v l ≠ "" ↔ (v ≠ "" ∨ l.any isInvalidFormat = true)) := by
  induction l with
  | nil => intro v _; simp [lastInvalidFormat]
  | cons ev rest ih =>
    intro v h
    have hrest : ∀ c, GAction.invalid_format c ∈ rest → c ≠ "" :=
      fun c hc => h c (by simp [hc])
    rw [lastInvalidFormat, List.foldl_cons, ← lastInvalidFormat, List.any_cons]
    cases ev with
    | invalid_format c =>
      have hc : c ≠ "" := h c (by simp)
      rw [ih c hrest]
      simp [isInvalidFormat, hc]
    | adventure_info c => rw [ih v hrest]; simp [isInvalidFormat]
    | action_fail p ft => rw [ih v hrest]; simp [isInvalidFormat]
    | turn_limit_reached n => rw [ih v hrest]; simp [isInvalidFormat]
    | goal_status a b => rw [ih v hrest]; simp [isInvalidFormat]
    | game_result a b => rw [ih v hrest]; simp [isInvalidFormat]
    | other t => rw [ih v hrest]; simp [isInvalidFormat]

lemma any_join (p : GAction → Bool) (ts : List (List GAction)) :
    ts.flatten.any p = ts.any (fun t => t.any p) := by
  induction ts with
  | nil => rfl
  | cons t rest ih => rw [List.flatten_cons, List.any_append, List.any_cons, ih]

lemma scoreTurnsAux_spec (turns : List (List GAction)) :
    ∀ (acc : LoopAcc) (idx : Nat),
      (∀ t ∈ turns, hasGoalStatusEvent t = true) →
      scoreTurnsAux acc idx turns
        = ({ st := turns.foldl epStep acc.st,
             turn_scores := acc.turn_scores ++ turnScoresOf acc.st turns,
             turn_fails := acc.turn_fails ++ turnFailsOf acc.st turns,
             entries := acc.entries ++ entriesBlocks idx acc.st turns }, none) := by
  induction turns with
  | nil =>
    intro acc idx _
    simp [scoreTurnsAux, turnScoresOf, turnFailsOf, entriesBlocks]
  | cons t rest ih =>
    intro acc idx h
    have hht : hasGoalStatusEvent t = true := h t (by simp)
    have hrest : ∀ t' ∈ rest, hasGoalStatusEvent t' = true :=
      fun t' ht' => h t' (by simp [ht'])
    obtain ⟨g, hg⟩ : ∃ g, (scoreTurn acc.st t).goal_score = some g := by
      have h' := scoreTurn_goal_isSome acc.st t
      rw [hht] at h'
      exact Option.isSome_iff_exists.mp h'
    simp only [scoreTurnsAux, hg]
    rw [ih _ _ hrest]
    simp [turnScoresOf, turnFailsOf, entriesBlocks, hg, scoreTurn_st, List.append_assoc]


lemma turnBlock_shape (idx : Nat) (a : TurnAcc) :
    ∀ e ∈ turnBlock idx a, ∃ n v, e = LogEntry.turn idx n v := by
  rw [turnBlock]
  cases a.goal_score <;> split_ifs <;>
    · intro e he
      simp only [List.mem_append, List.mem_cons, List.mem_map, List.not_mem_nil, or_false,
        List.append_nil] at he
      aesop

lemma turnLookup_skip (idx : Nat) (name : String) (l2 : List LogEntry) :
    ∀ l1 : List LogEntry,
      (∀ e ∈ l1, ∀ n v, e = LogEntry.turn idx n v → False) →
      turnScoreLookup (l1 ++ l2) idx name = turnScoreLookup l2 idx name := by
  intro l1
  induction l1 with
  | nil => intro _; rfl
  | cons e rest ih =>
    intro h
    have hrest : ∀ e' ∈ rest, ∀ n v, e' = LogEntry.turn idx n v → False :=
      fun e' he' => h e' (by simp [he'])
    cases e with
    | turn i n v =>
      have hne : i ≠ idx := by
        intro hi
        exact h (LogEntry.turn i n v) (by simp) n v (by rw [hi])
      rw [List.cons_append, turnScoreLookup, if_neg (by simp [hne]), ih hrest]
    | episode n v =>
      rw [List.cons_append, turnScoreLookup, ih hrest]

lemma turnLookup_append_left (idx : Nat) (name : String) (l2 : List LogEntry)
    (w : ScoreVal) :
    ∀ l1 : List LogEntry, turnScoreLookup l1 idx name = some w →
      turnScoreLookup (l1 ++ l2) idx name = some w := by
  intro l1
  induction l1 with
  | nil => intro h; exact absurd h (by simp [turnScoreLookup])
  | cons e rest ih =>
    intro h
    cases e with
    | turn i n v =>
      rw [turnScoreLookup] at h
      rw [List.cons_append, turnScoreLookup]
      by_cases hc : i = idx ∧ n = name
      · rw [if_pos hc] at h ⊢; exact h
      · rw [if_neg hc] at h ⊢; exact ih h
    | episode n v =>
      rw [turnScoreLookup] at h
      rw [List.cons_append, turnScoreLookup]
      exact ih h

lemma epLookup_skip (name : String) (l2 : List LogEntry) :
    ∀ l1 : List LogEntry, (∀ e ∈ l1, e.isTurnEntry = true) →
      epScoreLookup (l1 ++ l2) name = epScoreLookup l2 name := by
  intro l1
  induction l1 with
  | nil => intro _; rfl
  | cons e rest ih =>
    intro h
    have hrest : ∀ e' ∈ rest, e'.isTurnEntry = true := fun e' he' => h e' (by simp [he'])
    cases e with
    | turn i n v => rw [List.cons_append, epScoreLookup, ih hrest]
    | episode n v =>
      exact absurd (h (LogEntry.episode n v) (by simp)) (by simp [LogEntry.isTurnEntry])

lemma entriesBlocks_isTurn (turns : List (List GAction)) :
    ∀ (idx : Nat) (st : EpState), ∀ e ∈ entriesBlocks idx st turns, e.isTurnEntry = true := by
  induction turns with
  | nil => intro idx st e he; exact absurd he (by simp [entriesBlocks])
  | cons t rest ih =>
    intro idx st e he
    rw [entriesBlocks] at he
    rcases List.mem_append.mp he with h | h
    · obtain ⟨n, v, rfl⟩ := turnBlock_shape idx (scoreTurn st t) e h
      rfl
    · exact ih (idx + 1) (epStep st t) e h

lemma entriesBlocks_lookup (name : String)
    (turns : List (List GAction)) :
    ∀ (st : EpState) (idx0 i : Nat) (h : i < turns.length) (w : ScoreVal),
      turnScoreLookup
          (turnBlock (idx0 + i) (scoreTurn ((turns.take i).foldl epStep st) (turns.get ⟨i, h⟩)))
          (idx0 + i) name = some w →
      turnScoreLookup (entriesBlocks idx0 st turns) (idx0 + i) name = some w := by
  induction turns with
  | nil => intro st idx0 i h; exact absurd h (by simp)
  | cons t rest ih =>
    intro st idx0 i h w hw
    rw [entriesBlocks]
    cases i with
    | zero =>
      simp only [List.take_zero, List.foldl_nil, List.get] at hw
      exact turnLookup_append_left _ _ _ _ _ hw
    | succ k =>
      have hk : k < rest.length := Nat.lt_of_succ_lt_succ h
      have hskip : ∀ e ∈ turnBlock idx0 (scoreTurn st t),
          ∀ n v, e = LogEntry.turn (idx0 + (k + 1)) n v → False := by
        intro e he n v hev
        obtain ⟨n', v', rfl⟩ := turnBlock_shape idx0 (scoreTurn st t) e he
        have : idx0 = idx0 + (k + 1) := by
          injection hev
        omega
      rw [turnLookup_skip _ _ _ _ hskip]
      have harith : idx0 + (k + 1) = (idx0 + 1) + k := by omega
      rw [harith]
      apply ih (epStep st t) (idx0 + 1) k hk w
      have hstate : ((t :: rest).take (k + 1)).foldl epStep st
          = (rest.take k).foldl epStep (epStep st t) := by
        rw [List.take_succ_cons, List.foldl_cons]
      rw [harith, hstate] at hw
      exact hw


lemma turnBlock_lookup_request (idx : Nat) (a : TurnAcc) :
    turnScoreLookup (turnBlock idx a) idx METRIC_REQUEST_COUNT = some (ScoreVal.num 1) := by
  simp [turnBlock, turnScoreLookup, List.cons_append, List.append_assoc]

lemma turnBlock_lookup_parsed (idx : Nat) (a : TurnAcc) :
    turnScoreLookup (turnBlock idx a) idx METRIC_REQUEST_COUNT_PARSED
      = some (ScoreVal.num (if a.st.invalid_format ≠ "" then 0 else 1)) := by
  by_cases h : a.st.invalid_format ≠ "" <;>
    simp [h, turnBlock, turnScoreLookup, METRIC_REQUEST_COUNT, METRIC_REQUEST_COUNT_PARSED,
      List.cons_append, List.append_assoc]

lemma turnBlock_lookup_violated (idx : Nat) (a : TurnAcc) :
    turnScoreLookup (turnBlock idx a) idx METRIC_REQUEST_COUNT_VIOLATED
      = some (ScoreVal.num (if a.st.invalid_format ≠ "" then 1 else 0)) := by
  by_cases h : a.st.invalid_format ≠ "" <;>
    simp [h, turnBlock, turnScoreLookup, METRIC_REQUEST_COUNT, METRIC_REQUEST_COUNT_PARSED,
      METRIC_REQUEST_COUNT_VIOLATED, List.cons_append, List.append_assoc]

lemma turnBlock_lookup_ctm (idx : Nat) (a : TurnAcc) :
    turnScoreLookup (turnBlock idx a) idx "command_tag_missing"
      = some (ScoreVal.num (if a.st.invalid_format = "command_tag_missing" then 1 else 0)) := by
  by_cases h1 : a.st.invalid_format = "command_tag_missing" <;>
    by_cases h2 : a.st.invalid_format = "next_actions_missing" <;>
      simp_all [turnBlock, turnScoreLookup, METRIC_REQUEST_COUNT, METRIC_REQUEST_COUNT_PARSED,
        METRIC_REQUEST_COUNT_VIOLATED, List.cons_append, List.append_assoc]

lemma turnBlock_lookup_nam (idx : Nat) (a : TurnAcc) :
    turnScoreLookup (turnBlock idx a) idx "next_actions_missing"
      = some (ScoreVal.num (if a.st.invalid_format = "next_actions_missing" then 1 else 0)) := by
  by_cases h1 : a.st.invalid_format = "command_tag_missing" <;>
    by_cases h2 : a.st.invalid_format = "next_actions_missing" <;>
      simp_all [turnBlock, turnScoreLookup, METRIC_REQUEST_COUNT, METRIC_REQUEST_COUNT_PARSED,
        METRIC_REQUEST_COUNT_VIOLATED, List.cons_append, List.append_assoc]

lemma turnScoresOf_request_sum (turns : List (List GAction)) :
    ∀ st : EpState,
      ((turnScoresOf st turns).map (fun t => t.request_count)).sum = turns.length := by
  induction turns with
  | nil => intro st; rfl
  | cons t rest ih =>
    intro st
    rw [turnScoresOf]
    simp only [List.map_cons, List.sum_cons, List.length_cons, ih]
    omega

lemma turnScoresOf_length (turns : List (List GAction)) :
    ∀ st : EpState, (turnScoresOf st turns).length = turns.length := by
  induction turns with
  | nil => intro st; rfl
  | cons t rest ih =>
    intro st
    rw [turnScoresOf]
    simp [ih]

lemma episodeEntries_spec (acc : LoopAcc) (info : AdvInfo)
    (hreq : (acc.turn_scores.map (fun t => t.request_count)).sum ≠ 0)
    (hinfo : acc.st.adventure_info = some info)
    (hrange : info.max_turns - info.optimal_turns ≠ 0)
    (hgc : info.goal_count ≠ 0)
    (hlen : acc.turn_scores.length ≠ 0) :
    (episodeEntries acc).2 = none ∧
    epScoreLookup (episodeEntries acc).1 "turns_over_par"
      = some (if acc.st.successfully_finished
          then ScoreVal.num ((((acc.turn_scores.length : Int) - info.optimal_turns : Int) : ℚ))
          else ScoreVal.nan) ∧
    epScoreLookup (episodeEntries acc).1 "turn_ratio"
      = some (if acc.st.successfully_finished
          then ScoreVal.num (1 - (((acc.turn_scores.length : Int) - info.optimal_turns : Int) : ℚ)
              / (((info.max_turns - info.optimal_turns : Int) : ℚ)))
          else ScoreVal.nan) ∧
    epScoreLookup (episodeEntries acc).1 "achieved_goal_ratio"
      = some (ScoreVal.num ((acc.st.final_goals_achieved.length : ℚ) / (info.goal_count : ℚ))) ∧
    epScoreLookup (episodeEntries acc).1 BENCH_SCORE
      = some (if acc.st.successfully_finished
          then ScoreVal.num (((acc.st.final_goals_achieved.length : ℚ) / (info.goal_count : ℚ))
              * (1 - (((acc.turn_scores.length : Int) - info.optimal_turns : Int) : ℚ)
                  / (((info.max_turns - info.optimal_turns : Int) : ℚ))))
          else ScoreVal.nan) ∧
    epScoreLookup (episodeEntries acc).1 METRIC_ABORTED
      = some (ScoreVal.num (if acc.st.invalid_format ≠ "" then 1 else 0)) ∧
    epScoreLookup (episodeEntries acc).1 METRIC_SUCCESS
      = some (ScoreVal.num (if acc.st.successfully_finished then 1 else 0)) ∧
    epScoreLookup (episodeEntries acc).1 METRIC_LOSE
      = some (ScoreVal.num (if acc.st.successfully_finished then 0 else 1)) := by
  by_cases hfin : acc.st.successfully_finished <;>
    by_cases hinv : acc.st.invalid_format ≠ "" <;>
      simp [episodeEntries, hinfo, hreq, hrange, hgc, hlen, hfin, hinv, epScoreLookup,
        fail_types, METRIC_REQUEST_COUNT, METRIC_REQUEST_COUNT_PARSED,
        METRIC_REQUEST_COUNT_VIOLATED, METRIC_REQUEST_SUCCESS, METRIC_ABORTED,
        METRIC_SUCCESS, METRIC_LOSE, BENCH_SCORE, List.cons_append, List.append_assoc]

lemma episodeEntries_zero_range (acc : LoopAcc) (info : AdvInfo)
    (hreq : (acc.turn_scores.map (fun t => t.request_count)).sum ≠ 0)
    (hinfo : acc.st.adventure_info = some info)
    (hrange : info.max_turns - info.optimal_turns = 0) :
    (episodeEntries acc).2 = some ScoreErr.zeroDivisionError ∧
    epScoreLookup (episodeEntries acc).1 "turn_ratio" = none := by
  by_cases hfin : acc.st.successfully_finished <;>
    simp [episodeEntries, hinfo, hreq, hrange, hfin, epScoreLookup,
      fail_types, METRIC_REQUEST_COUNT, METRIC_REQUEST_COUNT_PARSED,
      METRIC_REQUEST_COUNT_VIOLATED, METRIC_REQUEST_SUCCESS,
      List.cons_append, List.append_assoc]


/-- The scorer's derived episode outcome: the value of its
`successfully_finished` variable after scanning the whole log. -/
def derivedFinished (turns : List (List GAction)) : Bool :=
  (stAfterTurns turns).successfully_finished

/-- The scorer's derived final achieved-goal list. -/
def derivedFinalGoals (turns : List (List GAction)) : List String :=
  (stAfterTurns turns).final_goals_achieved

/-- The `adventure_info` the scorer ends up with (from the last such event). -/
def adventureInfoOf (turns : List (List GAction)) : Option AdvInfo :=
  (stAfterTurns turns).adventure_info

lemma compute_scores_eq (turns : List (List GAction))
    (hg : ∀ t ∈ turns, hasGoalStatusEvent t = true) :
    compute_scores turns
      = (entriesBlocks 0 initEpState turns
          ++ (episodeEntries ⟨stAfterTurns turns, turnScoresOf initEpState turns,
                turnFailsOf initEpState turns, entriesBlocks 0 initEpState turns⟩).1,
         (episodeEntries ⟨stAfterTurns turns, turnScoresOf initEpState turns,
            turnFailsOf initEpState turns, entriesBlocks 0 initEpState turns⟩).2) := by
  rw [compute_scores, scoreTurnsAux_spec turns _ 0 hg]
  simp [stAfterTurns]

lemma compute_scores_episode_spec (turns : List (List GAction)) (info : AdvInfo)
    (hg : ∀ t ∈ turns, hasGoalStatusEvent t = true)
    (hne : turns ≠ [])
    (hinfo : adventureInfoOf turns = some info)
    (hrange : info.max_turns - info.optimal_turns ≠ 0)
    (hgc : info.goal_count ≠ 0) :
    (compute_scores turns).2 = none ∧
    epScoreLookup (compute_scores turns).1 "turns_over_par"
      = some (if derivedFinished turns
          then ScoreVal.num ((((turns.length : Int) - info.optimal_turns : Int) : ℚ))
          else ScoreVal.nan) ∧
    epScoreLookup (compute_scores turns).1 "turn_ratio"
      = some (if derivedFinished turns
          then ScoreVal.num (1 - (((turns.length : Int) - info.optimal_turns : Int) : ℚ)
              / (((info.max_turns - info.optimal_turns : Int) : ℚ)))
          else ScoreVal.nan) ∧
    epScoreLookup (compute_scores turns).1 "achieved_goal_ratio"
      = some (ScoreVal.num (((derivedFinalGoals turns).length : ℚ) / (info.goal_count : ℚ))) ∧
    epScoreLookup (compute_scores turns).1 BENCH_SCORE
      = some (if derivedFinished turns
          then ScoreVal.num ((((derivedFinalGoals turns).length : ℚ) / (info.goal_count : ℚ))
              * (1 - (((turns.length : Int) - info.optimal_turns : Int) : ℚ)
                  / (((info.max_turns - info.optimal_turns : Int) : ℚ))))
          else ScoreVal.nan) ∧
    epScoreLookup (compute_scores turns).1 METRIC_ABORTED
      = some (ScoreVal.num (if (stAfterTurns turns).invalid_format ≠ "" then 1 else 0)) ∧
    epScoreLookup (compute_scores turns).1 METRIC_SUCCESS
      = some (ScoreVal.num (if derivedFinished turns then 1 else 0)) ∧
    epScoreLookup (compute_scores turns).1 METRIC_LOSE
      = some (ScoreVal.num (if derivedFinished turns then 0 else 1)) := by
  have hlen0 : turns.length ≠ 0 := fun h => hne (List.length_eq_zero.mp h)
  have hsp := episodeEntries_spec
    ⟨stAfterTurns turns, turnScoresOf initEpState turns,
      turnFailsOf initEpState turns, entriesBlocks 0 initEpState turns⟩ info
    (by simpa [turnScoresOf_request_sum] using hlen0)
    hinfo hrange hgc
    (by simpa [turnScoresOf_length] using hlen0)
  rw [compute_scores_eq turns hg]
  have hskip : ∀ name : String,
      epScoreLookup
          (entriesBlocks 0 initEpState turns
            ++ (episodeEntries ⟨stAfterTurns turns, turnScoresOf initEpState turns,
                  turnFailsOf initEpState turns, entriesBlocks 0 initEpState turns⟩).1) name
        = epScoreLookup
            (episodeEntries ⟨stAfterTurns turns, turnScoresOf initEpState turns,
              turnFailsOf initEpState turns, entriesBlocks 0 initEpState turns⟩).1 name :=
    fun name => epLookup_skip name _ _ (entriesBlocks_isTurn turns 0 initEpState)
  simp only [hskip]
  simpa [derivedFinished, derivedFinalGoals, turnScoresOf_length] using hsp


/-- The value of the scorer's `invalid_format` variable when the per-turn
request scores of turn `i` are computed: the content of the most recent
`invalid_format` event in turns `0..i` (empty if there is none). -/
def invalidMarkerAt (turns : List (List GAction)) (i : Nat) : String :=
  lastInvalidFormat "" ((turns.take (i + 1)).flatten)

lemma take_succ_of_lt (turns : List (List GAction)) (i : Nat) (hi : i < turns.length) :
    turns.take (i + 1) = turns.take i ++ [turns.get ⟨i, hi⟩] := by
  rw [List.take_succ]
  congr 1
  rw [List.getElem?_eq_getElem hi]
  simp

lemma scoreTurn_prefix_invalid (turns : List (List GAction)) (i : Nat)
    (hi : i < turns.length) :
    (scoreTurn ((turns.take i).foldl epStep initEpState) (turns.get ⟨i, hi⟩)).st.invalid_format
      = invalidMarkerAt turns i := by
  rw [scoreTurn_st, invalidMarkerAt, take_succ_of_lt turns i hi, List.flatten_append,
    lastInvalidFormat_append, epStep_invalid, foldl_epStep_invalid]
  simp only [List.flatten_cons, List.flatten_nil, List.append_nil]
  rfl

lemma compute_scores_turnLookup (turns : List (List GAction)) (i : Nat) (name : String)
    (hg : ∀ t ∈ turns, hasGoalStatusEvent t = true)
    (hi : i < turns.length) (w : ScoreVal)
    (hw : turnScoreLookup
        (turnBlock i (scoreTurn ((turns.take i).foldl epStep initEpState) (turns.get ⟨i, hi⟩)))
        i name = some w) :
    turnScoreLookup (compute_scores turns).1 i name = some w := by
  rw [compute_scores_eq turns hg]
  apply turnLookup_append_left
  have h0 := entriesBlocks_lookup name turns initEpState 0 i hi w
  simp only [Nat.zero_add] at h0
  exact h0 hw

def isGameResult : GAction → Bool
  | GAction.game_result _ _ => true
  | _ => false

/-- Some turn of the log contains a terminal `game_result` event. -/
def hasGameResultEvent (turns : List (List GAction)) : Bool :=
  turns.any (fun t => t.any isGameResult)

lemma epStep_no_game_result (t : List GAction) :
    ∀ s : EpState, t.any isGameResult = false →
      (epStep s t).successfully_finished = s.successfully_finished ∧
      (epStep s t).final_goals_achieved = s.final_goals_achieved := by
  induction t with
  | nil => intro s _; exact ⟨rfl, rfl⟩
  | cons ev rest ih =>
    intro s h
    rw [List.any_cons] at h
    have hev : isGameResult ev = false := by
      cases hc : isGameResult ev
      · rfl
      · rw [hc] at h; simp at h
    have hrest : rest.any isGameResult = false := by
      cases hc : rest.any isGameResult
      · rfl
      · rw [hc] at h; simp at h
    have hstep : (stepSt s ev).successfully_finished = s.successfully_finished ∧
        (stepSt s ev).final_goals_achieved = s.final_goals_achieved := by
      cases ev <;> simp_all [stepSt, isGameResult]
    have h' := ih (stepSt s ev) hrest
    exact ⟨h'.1.trans hstep.1, h'.2.trans hstep.2⟩

lemma stAfterTurns_no_game_result (turns : List (List GAction))
    (h : hasGameResultEvent turns = false) :
    derivedFinished turns = false ∧ derivedFinalGoals turns = [] := by
  rw [derivedFinished, derivedFinalGoals, stAfterTurns]
  suffices hsuf : ∀ ts : List (List GAction), ts.any (fun t => t.any isGameResult) = false →
      ∀ s : EpState,
        (ts.foldl epStep s).successfully_finished = s.successfully_finished ∧
        (ts.foldl epStep s).final_goals_achieved = s.final_goals_achieved by
    have hs := hsuf turns (by rw [hasGameResultEvent] at h; exact h) initEpState
    exact ⟨hs.1, hs.2⟩
  intro ts
  induction ts with
  | nil => intro _ s; exact ⟨rfl, rfl⟩
  | cons t rest ih =>
    intro h' s
    rw [List.any_cons] at h'
    have ht : t.any isGameResult = false := by
      cases hc : t.any isGameResult
      · rfl
      · rw [hc] at h'; simp at h'
    have hrest : rest.any (fun u => u.any isGameResult) = false := by
      cases hc : rest.any (fun u => u.any isGameResult)
      · rfl
      · rw [hc] at h'; simp at h'
    have h1 := epStep_no_game_result t s ht
    have h2 := ih hrest (epStep s t)
    exact ⟨h2.1.trans h1.1, h2.2.trans h1.2⟩

lemma invalidMarkerAt_ne_iff (turns : List (List GAction)) (i : Nat)
    (hne : ∀ t ∈ turns, ∀ c, GAction.invalid_format c ∈ t → c ≠ "") :
    (invalidMarkerAt turns i ≠ "" ↔ hasInvalidFormatEvent (turns.take (i + 1)) = true) := by
  rw [invalidMarkerAt,
    lastInvalidFormat_ne_iff _ _ (by
      intro c hc
      rw [List.mem_flatten] at hc
      obtain ⟨t, ht, hct⟩ := hc
      exact hne t (List.take_subset _ _ ht) c hct)]
  rw [hasInvalidFormatEvent, ← any_join]
  simp


/-- State of `AdventureGameMaster` relevant to response validation and the
continuation predicate (master.py lines 30-35, 58-63): the `invalid_format`
flag, the `success` and `finished` flags, the achieved and required goal
sets, the list `self.turns` of completed-turn records, the turn budget
`max_turns` from the game instance, and the game variant. -/
structure GMState where
  invalid_format : String
  success : Bool
  finished : Bool
  goals_achieved : Finset String
  goals_required : Finset String
  turns : List Bool
  max_turns : Nat
  if_variant : String
deriving DecidableEq

/-- Events logged with `log_to_self` by `_does_game_proceed`. -/
inductive GMEvent where
  | invalid_format (content : String)
  | adventure_finished (goals : Finset String)
  | turn_limit_reached (n : Nat)
deriving DecidableEq

/-- `AdventureGameMaster._does_game_proceed` (master.py lines 127-148):
returns whether the game proceeds, together with the updated master state
and the events logged during the call. -/
def does_game_proceed (s : GMState) : Bool × GMState × List GMEvent :=
  if s.invalid_format ≠ "" then
    (false, s, [GMEvent.invalid_format s.invalid_format])
  else if s.goals_achieved = s.goals_required then
    (false, { s with finished := true }, [GMEvent.adventure_finished s.goals_achieved])
  else if s.max_turns ≤ s.turns.length then
    (false, s, [GMEvent.turn_limit_reached s.max_turns])
  else
    (true, s, [])

/-- Python `sub in s` (`str.__contains__`), used only with the nonempty
plan-section marker. -/
def strContains (s sub : String) : Bool := (s.splitOn sub).length != 1

/-- `AdventureGameMaster._validate_player_response` (master.py lines 87-104)
for the game's player: given the variant, the current `invalid_format` and
`success` attributes, and the utterance, returns the validation result and
the updated `invalid_format` and `success` attributes. -/
def validate_player_response (if_variant : String) (invalid_format : String)
    (success : Bool) (utterance : String) : Bool × String × Bool :=
  if ¬ (utterance.startsWith ">" = true) then
    (false, "command_tag_missing", false)
  else if if_variant = "plan" ∧ strContains utterance "\nNext actions:" = false then
    (false, "next_actions_missing", false)
  else
    (true, invalid_format, success)

/-- C6: the Game Master's continuation predicate returns false exactly when
the format-validity flag is set, or the achieved goal set equals the
required goal set (and then, exactly when the flag is not set, the episode
is marked finished), or the completed-turn count has reached the turn
budget; the flag is checked first, so a flagged state is returned
unchanged; otherwise it returns true. -/
theorem claim_C6_continuation (s : GMState) :
    ((does_game_proceed s).1 = false ↔
      (s.invalid_format ≠ "" ∨ s.goals_achieved = s.goals_required ∨
        s.max_turns ≤ s.turns.length)) ∧
    ((does_game_proceed s).2.1.finished = true ↔
      (s.finished = true ∨ (s.invalid_format = "" ∧ s.goals_achieved = s.goals_required))) ∧
    (s.invalid_format ≠ "" → (does_game_proceed s).2.1 = s) ∧
    (s.invalid_format = "" → s.goals_achieved ≠ s.goals_required →
      (does_game_proceed s).2.1 = s) := by
  by_cases h1 : s.invalid_format = ""
  · by_cases h2 : s.goals_achieved = s.goals_required
    · simp [does_game_proceed, h1, h2]
    · by_cases h3 : s.max_turns ≤ s.turns.length <;>
        simp [does_game_proceed, h1, h2, h3]
  · simp [does_game_proceed, h1]

def gmEx : GMState :=
  ⟨"", true, false, {"a"}, {"a", "b"}, [true, true], 3, "basic"⟩

theorem claim_C6_continuation_witness :
    ((does_game_proceed gmEx).1 = false ↔
      (gmEx.invalid_format ≠ "" ∨ gmEx.goals_achieved = gmEx.goals_required ∨
        gmEx.max_turns ≤ gmEx.turns.length)) ∧
    ((does_game_proceed gmEx).2.1.finished = true ↔
      (gmEx.finished = true ∨
        (gmEx.invalid_format = "" ∧ gmEx.goals_achieved = gmEx.goals_required))) ∧
    (gmEx.invalid_format ≠ "" → (does_game_proceed gmEx).2.1 = gmEx) ∧
    (gmEx.invalid_format = "" → gmEx.goals_achieved ≠ gmEx.goals_required →
      (does_game_proceed gmEx).2.1 = gmEx) :=
  claim_C6_continuation gmEx

/-- C7: response validation returns false and sets the flag to
`command_tag_missing` iff the response does not begin with the command
marker; otherwise, exactly in the plan variant, it returns false and sets
the flag to `next_actions_missing` iff the plan marker is absent; in all
other cases it returns true and leaves the flag unchanged, and a set flag
is never cleared. -/
theorem claim_C7_validation (if_variant invalid_format : String) (success : Bool)
    (utterance : String) :
    (((validate_player_response if_variant invalid_format success utterance).1 = false ∧
      (validate_player_response if_variant invalid_format success utterance).2.1
        = "command_tag_missing") ↔ utterance.startsWith ">" = false) ∧
    (utterance.startsWith ">" = true →
      (((validate_player_response if_variant invalid_format success utterance).1 = false ∧
        (validate_player_response if_variant invalid_format success utterance).2.1
          = "next_actions_missing") ↔
        (if_variant = "plan" ∧ strContains utterance "\nNext actions:" = false))) ∧
    (utterance.startsWith ">" = true →
      (if_variant = "plan" → strContains utterance "\nNext actions:" = true) →
      validate_player_response if_variant invalid_format success utterance
        = (true, invalid_format, success)) ∧
    (invalid_format ≠ "" →
      (validate_player_response if_variant invalid_format success utterance).2.1 ≠ "") := by
  by_cases hs : utterance.startsWith ">" = true
  · by_cases hv : if_variant = "plan"
    · by_cases hm : strContains utterance "\nNext actions:" = true
      · simp [validate_player_response, hs, hv, hm]
      · have hm' : strContains utterance "\nNext actions:" = false := by
          cases hc : strContains utterance "\nNext actions:"
          · rfl
          · exact absurd hc hm
        simp [validate_player_response, hs, hv, hm']
    · simp [validate_player_response, hs, hv]
  · have hs' : utterance.startsWith ">" = false := by
      cases hc : utterance.startsWith ">"
      · rfl
      · exact absurd hc hs
    simp [validate_player_response, hs']

theorem claim_C7_validation_witness :
    (((validate_player_response "plan" "" true "look around").1 = false ∧
      (validate_player_response "plan" "" true "look around").2.1
        = "command_tag_missing") ↔ ("look around").startsWith ">" = false) ∧
    (("look around").startsWith ">" = true →
      (((validate_player_response "plan" "" true "look around").1 = false ∧
        (validate_player_response "plan" "" true "look around").2.1
          = "next_actions_missing") ↔
        ("plan" = "plan" ∧ strContains "look around" "\nNext actions:" = false))) ∧
    (("look around").startsWith ">" = true →
      ("plan" = "plan" → strContains "look around" "\nNext actions:" = true) →
      validate_player_response "plan" "" true "look around" = (true, "", true)) ∧
    ("" ≠ "" → (validate_player_response "plan" "" true "look around").2.1 ≠ "") :=
  claim_C7_validation "plan" "" true "look around"


/-- C1: for a finished episode whose log yields `goal_count = 4`, a
`final_goals_achieved` of size 3, `max_turns = 10`, `optimal_turns = 6`
and `turn_count = 8`, `compute_scores` emits exactly
`achieved_goal_ratio = 0.75`, `turns_over_par = 2`, `turn_ratio = 0.5`,
and the composite benchmark score `0.375 = achieved_goal_ratio * turn_ratio`. -/
theorem claim_C1_scores (turns : List (List GAction)) (info : AdvInfo)
    (hg : ∀ t ∈ turns, hasGoalStatusEvent t = true)
    (hlen : turns.length = 8)
    (hinfo : adventureInfoOf turns = some info)
    (hmax : info.max_turns = 10)
    (hopt : info.optimal_turns = 6)
    (hgc : info.goal_count = 4)
    (hfin : derivedFinished turns = true)
    (hgoals : (derivedFinalGoals turns).length = 3) :
    (compute_scores turns).2 = none ∧
    epScoreLookup (compute_scores turns).1 "achieved_goal_ratio"
      = some (ScoreVal.num (3 / 4)) ∧
    epScoreLookup (compute_scores turns).1 "turns_over_par" = some (ScoreVal.num 2) ∧
    epScoreLookup (compute_scores turns).1 "turn_ratio" = some (ScoreVal.num (1 / 2)) ∧
    epScoreLookup (compute_scores turns).1 BENCH_SCORE = some (ScoreVal.num (3 / 8)) := by
  have hne : turns ≠ [] := by
    intro h
    rw [h] at hlen
    simp at hlen
  have hrange : info.max_turns - info.optimal_turns ≠ 0 := by
    rw [hmax, hopt]; decide
  have hgc' : info.goal_count ≠ 0 := by rw [hgc]; decide
  obtain ⟨h1, h2, h3, h4, h5, _, _, _⟩ :=
    compute_scores_episode_spec turns info hg hne hinfo hrange hgc'
  rw [hfin, hlen, hopt] at h2
  rw [hfin, hlen, hmax, hopt] at h3
  rw [hgoals, hgc] at h4
  rw [hfin, hlen, hmax, hopt, hgc, hgoals] at h5
  refine ⟨h1, ?_, ?_, ?_, ?_⟩
  · rw [h4]; norm_num
  · rw [h2]; norm_num
  · rw [h3]; norm_num
  · rw [h5]; norm_num

/-- An eight-turn finished episode log realising the C1 parameters. -/
def c1Log : List (List GAction) :=
  [[GAction.adventure_info ⟨"basic", 10, 6, 4⟩, GAction.goal_status [] 0],
   [GAction.goal_status [] 0],
   [GAction.goal_status [] 0],
   [GAction.goal_status ["g1"] 1],
   [GAction.goal_status ["g1"] 0],
   [GAction.goal_status ["g1", "g2"] 1],
   [GAction.goal_status ["g1", "g2"] 0],
   [GAction.goal_status ["g1", "g2", "g3"] 1,
    GAction.game_result ["g1", "g2", "g3"] true]]

theorem claim_C1_scores_witness :
    (compute_scores c1Log).2 = none ∧
    epScoreLookup (compute_scores c1Log).1 "achieved_goal_ratio"
      = some (ScoreVal.num (3 / 4)) ∧
    epScoreLookup (compute_scores c1Log).1 "turns_over_par" = some (ScoreVal.num 2) ∧
    epScoreLookup (compute_scores c1Log).1 "turn_ratio" = some (ScoreVal.num (1 / 2)) ∧
    epScoreLookup (compute_scores c1Log).1 BENCH_SCORE = some (ScoreVal.num (3 / 8)) :=
  claim_C1_scores c1Log ⟨"basic", 10, 6, 4⟩ (by decide) (by decide) (by decide)
    rfl rfl rfl (by decide) (by decide)

/-- An aborted first-turn episode log: the master logged the
`invalid_format` event for the rejected response and, because
`_does_game_proceed` then failed, no `goal_status` event exists. -/
def c2AbortLog : List (List GAction) :=
  [[GAction.other "get message", GAction.adventure_info ⟨"basic", 10, 6, 4⟩,
    GAction.invalid_format "command_tag_missing"]]

/-- C2 counterexample: a log whose terminal state is not
finished-successfully on which the Scorer does not report
`achieved_goal_ratio` (or anything else episode-level) at all: it raises
`KeyError("goal_score")` at the per-turn goal-score line first. -/
theorem claim_C2_counterexample :
    derivedFinished c2AbortLog = false ∧
    (compute_scores c2AbortLog).2 = some (ScoreErr.keyError "goal_score") ∧
    epScoreLookup (compute_scores c2AbortLog).1 "achieved_goal_ratio" = none ∧
    epScoreLookup (compute_scores c2AbortLog).1 "turns_over_par" = none ∧
    epScoreLookup (compute_scores c2AbortLog).1 "turn_ratio" = none := by
  refine ⟨?_, ?_, ?_, ?_, ?_⟩ <;> with_unfolding_all rfl

/-- C2 amended: for every scoreable not-finished log (every turn has a
`goal_status` event, the log is nonempty, an `adventure_info` event with
`max_turns ≠ optimal_turns` and `goal_count ≠ 0` was logged), the Scorer
reports `turns_over_par`, `turn_ratio` and the benchmark score as the NaN
sentinel while `achieved_goal_ratio` is reported as a number. -/
theorem claim_C2_amended (turns : List (List GAction)) (info : AdvInfo)
    (hg : ∀ t ∈ turns, hasGoalStatusEvent t = true)
    (hne : turns ≠ [])
    (hinfo : adventureInfoOf turns = some info)
    (hrange : info.max_turns ≠ info.optimal_turns)
    (hgc : info.goal_count ≠ 0)
    (hunfin : derivedFinished turns = false) :
    (compute_scores turns).2 = none ∧
    epScoreLookup (compute_scores turns).1 "turns_over_par" = some ScoreVal.nan ∧
    epScoreLookup (compute_scores turns).1 "turn_ratio" = some ScoreVal.nan ∧
    epScoreLookup (compute_scores turns).1 BENCH_SCORE = some ScoreVal.nan ∧
    epScoreLookup (compute_scores turns).1 "achieved_goal_ratio"
      = some (ScoreVal.num
          (((derivedFinalGoals turns).length : ℚ) / (info.goal_count : ℚ))) := by
  have hr : info.max_turns - info.optimal_turns ≠ 0 := sub_ne_zero.mpr hrange
  obtain ⟨h1, h2, h3, h4, h5, _, _, _⟩ :=
    compute_scores_episode_spec turns info hg hne hinfo hr hgc
  rw [hunfin] at h2 h3 h5
  exact ⟨h1, by simpa using h2, by simpa using h3, by simpa using h5, h4⟩

def advEx : AdvInfo := ⟨"basic", 10, 6, 4⟩

/-- A two-turn unfinished (lost) episode log. -/
def c2UnfinLog : List (List GAction) :=
  [[GAction.adventure_info advEx, GAction.goal_status [] 0],
   [GAction.goal_status ["g1"] 1, GAction.game_result ["g1"] false]]

theorem claim_C2_amended_witness :
    (compute_scores c2UnfinLog).2 = none ∧
    epScoreLookup (compute_scores c2UnfinLog).1 "turns_over_par" = some ScoreVal.nan ∧
    epScoreLookup (compute_scores c2UnfinLog).1 "turn_ratio" = some ScoreVal.nan ∧
    epScoreLookup (compute_scores c2UnfinLog).1 BENCH_SCORE = some ScoreVal.nan ∧
    epScoreLookup (compute_scores c2UnfinLog).1 "achieved_goal_ratio"
      = some (ScoreVal.num
          (((derivedFinalGoals c2UnfinLog).length : ℚ) / (advEx.goal_count : ℚ))) :=
  claim_C2_amended c2UnfinLog advEx (by decide) (by decide) (by decide) (by decide)
    (by decide) (by decide)

/-- A log with the degenerate configuration `max_turns == optimal_turns`. -/
def degenLog : List (List GAction) :=
  [[GAction.adventure_info ⟨"basic", 6, 6, 4⟩, GAction.goal_status [] 0]]

/-- C3 counterexample: the division at the turn-ratio computation is
executed with a zero denominator: on a log with
`max_turns == optimal_turns` the Scorer raises `ZeroDivisionError` (and
`turn_ratio` is never logged), so the division is not guarded. -/
theorem claim_C3_counterexample :
    (compute_scores degenLog).2 = some ScoreErr.zeroDivisionError ∧
    epScoreLookup (compute_scores degenLog).1 "turn_ratio" = none := by
  refine ⟨?_, ?_⟩ <;> with_unfolding_all rfl

/-- C3 amended: there is no guard; for every log that reaches the
turn-ratio computation with `max_turns = optimal_turns`, the division by
zero raises and propagates (`compute_scores` errors with
`ZeroDivisionError` and `turn_ratio` is never reported). -/
theorem claim_C3_amended (turns : List (List GAction)) (info : AdvInfo)
    (hg : ∀ t ∈ turns, hasGoalStatusEvent t = true)
    (hne : turns ≠ [])
    (hinfo : adventureInfoOf turns = some info)
    (heq : info.max_turns = info.optimal_turns) :
    (compute_scores turns).2 = some ScoreErr.zeroDivisionError ∧
    epScoreLookup (compute_scores turns).1 "turn_ratio" = none := by
  have hlen0 : turns.length ≠ 0 := fun h => hne (List.length_eq_zero.mp h)
  have hz := episodeEntries_zero_range
    ⟨stAfterTurns turns, turnScoresOf initEpState turns,
      turnFailsOf initEpState turns, entriesBlocks 0 initEpState turns⟩ info
    (by simpa [turnScoresOf_request_sum] using hlen0)
    hinfo (by rw [heq, sub_self])
  rw [compute_scores_eq turns hg]
  refine ⟨hz.1, ?_⟩
  rw [epLookup_skip _ _ _ (entriesBlocks_isTurn turns 0 initEpState)]
  exact hz.2

theorem claim_C3_amended_witness :
    (compute_scores degenLog).2 = some ScoreErr.zeroDivisionError ∧
    epScoreLookup (compute_scores degenLog).1 "turn_ratio" = none :=
  claim_C3_amended degenLog ⟨"basic", 6, 6, 4⟩ (by decide) (by decide) (by decide) rfl

/-- The interaction log the Game Master produces when the very first
response omits the command marker: the turn holds the logged
`invalid_format` event and no `goal_status` event (master.py lines
127-137 and 156-194: `_on_after_turn` skips all interpreter interaction
once `_does_game_proceed` is false). -/
def c4Log : List (List GAction) :=
  [[GAction.other "get message", GAction.invalid_format "command_tag_missing"]]

/-- C4: scoring the one-turn aborted log does not terminate normally: it
raises `KeyError("goal_score")` at the per-turn goal-score logging
(master.py line 274), and neither `aborted`, `success` nor any
interpreter-failure episode total is ever reported. -/
theorem claim_C4_code_bug :
    (compute_scores c4Log).2 = some (ScoreErr.keyError "goal_score") ∧
    epScoreLookup (compute_scores c4Log).1 METRIC_ABORTED = none ∧
    epScoreLookup (compute_scores c4Log).1 METRIC_SUCCESS = none ∧
    epScoreLookup (compute_scores c4Log).1 "action_parsing_fail" = none := by
  refine ⟨?_, ?_, ?_, ?_⟩ <;> with_unfolding_all rfl

/-- C5 counterexample: the fail-type list does not have 11 = 2 + 9
entries (it has 13). -/
theorem claim_C5_counterexample : ¬ (fail_types.length = 2 + 9) := by decide

/-- C5 amended: the per-turn metrics carry one-hot flags for exactly 13
interpreter failure kinds, 2 structural phases (parsing, resolution) plus
11 semantic sub-kinds, and an `action_fail` event whose phase is one of
the 2 phases and whose fail type is one of the 11 sub-kinds sets exactly
one phase flag and one sub-kind flag of its turn to 1, all other flags
staying 0. -/
theorem claim_C5_amended (st : EpState) (p t : String)
    (hp : p ∈ fail_types.take 2) (ht : t ∈ fail_types.drop 2) :
    fail_types.length = 2 + 11 ∧
    fail_types.take 2 = ["parsing", "resolution"] ∧
    (scoreTurn st [GAction.action_fail p t]).turn_fail p = 1 ∧
    (scoreTurn st [GAction.action_fail p t]).turn_fail t = 1 ∧
    (∀ k ∈ fail_types, k ≠ p → k ≠ t →
      (scoreTurn st [GAction.action_fail p t]).turn_fail k = 0) := by
  have hval : (scoreTurn st [GAction.action_fail p t]).turn_fail
      = dictSet (dictSet initTurnFail p 1) t 1 := rfl
  refine ⟨by decide, by decide, ?_, ?_, ?_⟩
  · rw [hval]
    by_cases hpt : p = t <;> simp [dictSet, hpt]
  · rw [hval]
    simp [dictSet]
  · intro k hk hkp hkt
    rw [hval]
    simp [dictSet, initTurnFail, hkp, hkt]

theorem claim_C5_amended_witness :
    fail_types.length = 2 + 11 ∧
    fail_types.take 2 = ["parsing", "resolution"] ∧
    (scoreTurn initEpState [GAction.action_fail "parsing" "lark_exception"]).turn_fail
      "parsing" = 1 ∧
    (scoreTurn initEpState [GAction.action_fail "parsing" "lark_exception"]).turn_fail
      "lark_exception" = 1 ∧
    (∀ k ∈ fail_types, k ≠ "parsing" → k ≠ "lark_exception" →
      (scoreTurn initEpState [GAction.action_fail "parsing" "lark_exception"]).turn_fail
        k = 0) :=
  claim_C5_amended initEpState "parsing" "lark_exception" (by decide) (by decide)


/-- A two-turn log with no terminal `game_result` event (e.g. a truncated
or partial interaction record). -/
def c8Log : List (List GAction) :=
  [[GAction.adventure_info ⟨"basic", 10, 6, 4⟩, GAction.goal_status [] 0],
   [GAction.goal_status ["g1"] 1]]

/-- C8 counterexample: on a log with no terminal `game_result` event the
Scorer completes without any error report and silently emits
`success = 0`, `lose = 1`, `aborted = 0` and sentinel par metrics —
exactly the signature of an ordinary unsuccessful episode, with no
distinct report of the inconsistency. -/
theorem claim_C8_counterexample :
    hasGameResultEvent c8Log = false ∧
    (compute_scores c8Log).2 = none ∧
    epScoreLookup (compute_scores c8Log).1 METRIC_SUCCESS = some (ScoreVal.num 0) ∧
    epScoreLookup (compute_scores c8Log).1 METRIC_LOSE = some (ScoreVal.num 1) ∧
    epScoreLookup (compute_scores c8Log).1 METRIC_ABORTED = some (ScoreVal.num 0) ∧
    epScoreLookup (compute_scores c8Log).1 "turns_over_par" = some ScoreVal.nan ∧
    epScoreLookup (compute_scores c8Log).1 "turn_ratio" = some ScoreVal.nan ∧
    epScoreLookup (compute_scores c8Log).1 BENCH_SCORE = some ScoreVal.nan := by
  refine ⟨?_, ?_, ?_, ?_, ?_, ?_, ?_, ?_⟩ <;> with_unfolding_all rfl

/-- C8 amended: a scoreable log with no terminal `game_result` event is
not detected as inconsistent: the Scorer completes normally and scores it
exactly as an ordinary unsuccessful episode — `success = 0`, `lose = 1`,
sentinel par metrics, and `achieved_goal_ratio = 0` computed from the
default empty achieved-goal list, conflated with a legitimate zero. -/
theorem claim_C8_amended (turns : List (List GAction)) (info : AdvInfo)
    (hg : ∀ t ∈ turns, hasGoalStatusEvent t = true)
    (hne : turns ≠ [])
    (hinfo : adventureInfoOf turns = some info)
    (hrange : info.max_turns ≠ info.optimal_turns)
    (hgc : info.goal_count ≠ 0)
    (hnores : hasGameResultEvent turns = false) :
    (compute_scores turns).2 = none ∧
    epScoreLookup (compute_scores turns).1 METRIC_SUCCESS = some (ScoreVal.num 0) ∧
    epScoreLookup (compute_scores turns).1 METRIC_LOSE = some (ScoreVal.num 1) ∧
    epScoreLookup (compute_scores turns).1 "turns_over_par" = some ScoreVal.nan ∧
    epScoreLookup (compute_scores turns).1 "turn_ratio" = some ScoreVal.nan ∧
    epScoreLookup (compute_scores turns).1 BENCH_SCORE = some ScoreVal.nan ∧
    epScoreLookup (compute_scores turns).1 "achieved_goal_ratio"
      = some (ScoreVal.num 0) := by
  obtain ⟨hfin, hgoals⟩ := stAfterTurns_no_game_result turns hnores
  have hr : info.max_turns - info.optimal_turns ≠ 0 := sub_ne_zero.mpr hrange
  obtain ⟨h1, h2, h3, h4, h5, _, h7, h8⟩ :=
    compute_scores_episode_spec turns info hg hne hinfo hr hgc
  rw [hfin] at h2 h3 h5 h7 h8
  rw [hgoals] at h4
  refine ⟨h1, by simpa using h7, by simpa using h8, by simpa using h2,
    by simpa using h3, by simpa using h5, ?_⟩
  rw [h4]
  norm_num

theorem claim_C8_amended_witness :
    (compute_scores c8Log).2 = none ∧
    epScoreLookup (compute_scores c8Log).1 METRIC_SUCCESS = some (ScoreVal.num 0) ∧
    epScoreLookup (compute_scores c8Log).1 METRIC_LOSE = some (ScoreVal.num 1) ∧
    epScoreLookup (compute_scores c8Log).1 "turns_over_par" = some ScoreVal.nan ∧
    epScoreLookup (compute_scores c8Log).1 "turn_ratio" = some ScoreVal.nan ∧
    epScoreLookup (compute_scores c8Log).1 BENCH_SCORE = some ScoreVal.nan ∧
    epScoreLookup (compute_scores c8Log).1 "achieved_goal_ratio"
      = some (ScoreVal.num 0) :=
  claim_C8_amended c8Log ⟨"basic", 10, 6, 4⟩ (by decide) (by decide) (by decide)
    (by decide) (by decide) (by decide)

/-- C9: for every turn of every fully scored log (each turn carries a
`goal_status` event, and every recorded violation event carries a
nonempty category), the per-turn metrics satisfy
`parsed_request_count + violated_request_count = request_count`, with
`request_count = 1`, and `parsed_request_count = 1` exactly when no
format violation has been recorded up to and including that turn. -/
theorem claim_C9_request_invariant (turns : List (List GAction)) (i : Nat)
    (hi : i < turns.length)
    (hg : ∀ t ∈ turns, hasGoalStatusEvent t = true)
    (hcat : ∀ t ∈ turns, ∀ c, GAction.invalid_format c ∈ t → c ≠ "") :
    ∃ p v : ℚ,
      turnScoreLookup (compute_scores turns).1 i METRIC_REQUEST_COUNT_PARSED
        = some (ScoreVal.num p) ∧
      turnScoreLookup (compute_scores turns).1 i METRIC_REQUEST_COUNT_VIOLATED
        = some (ScoreVal.num v) ∧
      turnScoreLookup (compute_scores turns).1 i METRIC_REQUEST_COUNT
        = some (ScoreVal.num 1) ∧
      p + v = 1 ∧
      (p = 1 ↔ hasInvalidFormatEvent (turns.take (i + 1)) = false) := by
  have hconn := scoreTurn_prefix_invalid turns i hi
  refine ⟨if invalidMarkerAt turns i ≠ "" then 0 else 1,
    if invalidMarkerAt turns i ≠ "" then 1 else 0, ?_, ?_, ?_, ?_, ?_⟩
  · apply compute_scores_turnLookup turns i _ hg hi
    rw [turnBlock_lookup_parsed, hconn]
  · apply compute_scores_turnLookup turns i _ hg hi
    rw [turnBlock_lookup_violated, hconn]
  · apply compute_scores_turnLookup turns i _ hg hi
    rw [turnBlock_lookup_request]
  · by_cases hc : invalidMarkerAt turns i ≠ "" <;> simp [hc]
  · have hiff := invalidMarkerAt_ne_iff turns i hcat
    by_cases hc : invalidMarkerAt turns i ≠ ""
    · have hinv : hasInvalidFormatEvent (turns.take (i + 1)) = true := hiff.mp hc
      rw [if_pos hc, hinv]
      norm_num
    · have hinv : hasInvalidFormatEvent (turns.take (i + 1)) = false := by
        cases hc' : hasInvalidFormatEvent (turns.take (i + 1))
        · rfl
        · exact absurd (hiff.mpr hc') hc
      rw [if_neg hc, hinv]
      simp

/-- A log whose second turn holds a recorded format violation. -/
def c9Log : List (List GAction) :=
  [[GAction.adventure_info advEx, GAction.goal_status [] 0],
   [GAction.invalid_format "command_tag_missing", GAction.goal_status [] 0]]

theorem claim_C9_request_invariant_witness :
    ∃ p v : ℚ,
      turnScoreLookup (compute_scores c9Log).1 1 METRIC_REQUEST_COUNT_PARSED
        = some (ScoreVal.num p) ∧
      turnScoreLookup (compute_scores c9Log).1 1 METRIC_REQUEST_COUNT_VIOLATED
        = some (ScoreVal.num v) ∧
      turnScoreLookup (compute_scores c9Log).1 1 METRIC_REQUEST_COUNT
        = some (ScoreVal.num 1) ∧
      p + v = 1 ∧
      (p = 1 ↔ hasInvalidFormatEvent (c9Log.take 2) = false) :=
  claim_C9_request_invariant c9Log 1 (by decide) (by decide) (by
    intro t ht c hc hceq
    subst hceq
    revert hc
    fin_cases ht <;> decide)

/-- A log whose first turn records a `command_tag_missing` violation and
whose second turn records a `next_actions_missing` violation. -/
def c10Log : List (List GAction) :=
  [[GAction.invalid_format "command_tag_missing", GAction.goal_status [] 0],
   [GAction.invalid_format "next_actions_missing", GAction.goal_status [] 0]]

/-- C10 counterexample: turn 1 lies at-or-after the first turn containing
an `invalid_format` event (turn 0, category `command_tag_missing`), yet
its `command_tag_missing` one-hot is 0, not 1: the Scorer uses the most
recent event's category, not the first one's. -/
theorem claim_C10_counterexample :
    hasInvalidFormatEvent (c10Log.take 1) = true ∧
    turnScoreLookup (compute_scores c10Log).1 0 "command_tag_missing"
      = some (ScoreVal.num 1) ∧
    turnScoreLookup (compute_scores c10Log).1 1 "command_tag_missing"
      = some (ScoreVal.num 0) ∧
    turnScoreLookup (compute_scores c10Log).1 1 "next_actions_missing"
      = some (ScoreVal.num 1) := by
  refine ⟨?_, ?_, ?_, ?_⟩ <;> with_unfolding_all rfl

/-- C10 amended: the invalid-format marker is never reset between turns
except by a later `invalid_format` event's own content: every turn is
scored by the most recent `invalid_format` event at or before it — when
that marker is nonempty the turn gets `parsed = 0`, `violated = 1` and
the one-hot of the marker's category (among the two known categories),
and a turn with empty marker gets `parsed = 1`, `violated = 0` and both
one-hots 0. -/
theorem claim_C10_amended (turns : List (List GAction)) (i : Nat)
    (hi : i < turns.length)
    (hg : ∀ t ∈ turns, hasGoalStatusEvent t = true) :
    turnScoreLookup (compute_scores turns).1 i "command_tag_missing"
      = some (ScoreVal.num
          (if invalidMarkerAt turns i = "command_tag_missing" then 1 else 0)) ∧
    turnScoreLookup (compute_scores turns).1 i "next_actions_missing"
      = some (ScoreVal.num
          (if invalidMarkerAt turns i = "next_actions_missing" then 1 else 0)) ∧
    turnScoreLookup (compute_scores turns).1 i METRIC_REQUEST_COUNT_PARSED
      = some (ScoreVal.num (if invalidMarkerAt turns i ≠ "" then 0 else 1)) ∧
    turnScoreLookup (compute_scores turns).1 i METRIC_REQUEST_COUNT_VIOLATED
      = some (ScoreVal.num (if invalidMarkerAt turns i ≠ "" then 1 else 0)) := by
  have hconn := scoreTurn_prefix_invalid turns i hi
  refine ⟨?_, ?_, ?_, ?_⟩
  · apply compute_scores_turnLookup turns i _ hg hi
    rw [turnBlock_lookup_ctm, hconn]
  · apply compute_scores_turnLookup turns i _ hg hi
    rw [turnBlock_lookup_nam, hconn]
  · apply compute_scores_turnLookup turns i _ hg hi
    rw [turnBlock_lookup_parsed, hconn]
  · apply compute_scores_turnLookup turns i _ hg hi
    rw [turnBlock_lookup_violated, hconn]

theorem claim_C10_amended_witness :
    turnScoreLookup (compute_scores c10Log).1 1 "command_tag_missing"
      = some (ScoreVal.num
          (if invalidMarkerAt c10Log 1 = "command_tag_missing" then 1 else 0)) ∧
    turnScoreLookup (compute_scores c10Log).1 1 "next_actions_missing"
      = some (ScoreVal.num
          (if invalidMarkerAt c10Log 1 = "next_actions_missing" then 1 else 0)) ∧
    turnScoreLookup (compute_scores c10Log).1 1 METRIC_REQUEST_COUNT_PARSED
      = some (ScoreVal.num (if invalidMarkerAt c10Log 1 ≠ "" then 0 else 1)) ∧
    turnScoreLookup (compute_scores c10Log).1 1 METRIC_REQUEST_COUNT_VIOLATED
      = some (ScoreVal.num (if invalidMarkerAt c10Log 1 ≠ "" then 1 else 0)) :=
  claim_C10_amended c10Log 1 (by decide) (by decide)

end Adventuregame
